import Mathlib

/-!
Verification of `stream_recorder.py` (qiglin/stream-recorder).

Shallow embedding of the core capture pipeline: the daily cutoff stop
check, the day-rollover check, device-format negotiation, the sample
conversion applied in `stream_record`, the per-session write loop, and
the shutdown control flow of `main`.  Machine arithmetic is modelled
with `Nat`/`Int`/`ℚ`; Python control flow (try/except/else) is modelled
with `Except` values describing how the guarded body ended.
-/

namespace StreamRecorder

/-! ### Stop check (main, lines 232-235)

The source tests, verbatim:
`(tid.hour != -1 and tid.hour > end_time_hour) or
 (tid.hour == end_time_hour and tid.minute >= end_time_minute)`
where `tid` is the current wall-clock time.  Note that the sentinel test
is written against `tid.hour`, the CURRENT hour, not against
`end_time_hour`. -/

/-- Embeds the break condition of the capture loop exactly as the code
writes it (main, lines 232-233). -/
def shouldStop (nowHour nowMinute endHour endMinute : Int) : Bool :=
  (nowHour != -1 && nowHour > endHour) || (nowHour == endHour && nowMinute >= endMinute)

/-- Modelled from the spec wording of `shouldStop(now, cutoff)`:
true when `cutoff.hour != -1` AND (`now.hour > cutoff.hour` OR
(`now.hour == cutoff.hour` AND `now.minute >= cutoff.minute`)). -/
def shouldStopSpec (nowHour nowMinute endHour endMinute : Int) : Bool :=
  endHour != -1 && (nowHour > endHour || (nowHour == endHour && nowMinute >= endMinute))

/-! ### Day rollover (main, lines 224-231)

State of the loop: `current_day` (initialised to the integer -1, later a
`YYYYMMDD` day key) and the running `session` index.  The rollover
branch updates `current_day` and creates the daily folder; it does not
touch `session`. -/

/-- Loop state carried across iterations of the capture loop: the stored
day key (-1 before the first iteration) and the session index. -/
structure RotState where
  currentDay : Int
  session : Nat
deriving DecidableEq, Repr

/-- Embeds main lines 228-231: when the formatted current date differs
from the stored key, store the new key and signal that the day folder
must be created; the session index is left as it is.  Returns the new
state and the folder-creation signal. -/
def checkDayRollover (st : RotState) (today : Int) : RotState × Bool :=
  if today != st.currentDay then
    ({ currentDay := today, session := st.session }, true)
  else
    (st, false)

/-- Modelled from the spec wording of `checkDayRollover(now)`: updates
the key, RESETS the session index, and signals folder creation. -/
def checkDayRolloverSpec (st : RotState) (today : Int) : RotState × Bool :=
  if today != st.currentDay then
    ({ currentDay := today, session := 0 }, true)
  else
    (st, false)

/-! ### Device negotiation (main, lines 186-212)

`for dtype in ['float32', 'float24', 'int16']: try open; break` with a
for-else that exits fatally when every encoding is rejected.  A device
is modelled as the predicate telling which encodings it accepts. -/

/-- The three sample encodings the source tries, in order. -/
inductive Dtype
  | float32
  | float24
  | int16
deriving DecidableEq, Repr

/-- The fixed priority order of main line 187. -/
def negotiationOrder : List Dtype := [Dtype.float32, Dtype.float24, Dtype.int16]

/-- Embeds the negotiation loop: walk the candidate list, stop at the
first encoding the device accepts.  Returns the list of encodings that
were attempted and rejected (in order) together with the accepted
encoding, or `none` when the list is exhausted. -/
def negotiate (accepts : Dtype → Bool) : List Dtype → List Dtype × Option Dtype
  | [] => ([], none)
  | d :: rest =>
    if accepts d then ([], some d)
    else
      let r := negotiate accepts rest
      (d :: r.1, r.2)

/-- Helper: on any candidate list, the rejected attempts are exactly the
longest all-rejected prefix and the result is the first accepted
encoding. -/
theorem negotiate_eq (accepts : Dtype → Bool) (l : List Dtype) :
    negotiate accepts l = (l.takeWhile (fun d => !accepts d), l.find? accepts) := by
  induction l with
  | nil => rfl
  | cons d rest ih =>
    by_cases h : accepts d = true
    · simp [negotiate, h, List.takeWhile, List.find?]
    · rw [Bool.not_eq_true] at h
      simp [negotiate, h, List.takeWhile, List.find?, ih]

/-! ### Sample conversion (stream_record, lines 150-153)

`if buf.dtype != np.int16: buf *= 32768; buf = buf.astype(np.int16)`.
Device samples are binary floating-point values; multiplying by the
power of two 32768 is exact, so the scaling is modelled as exact
rational multiplication.  `astype(np.int16)` is a C-style cast: the
fractional part is discarded toward zero and the integer is taken
modulo 2^16 into the signed 16-bit range. -/

/-- Truncation toward zero, the rounding performed by numpy astype on
floats (and by Python int() on line 221). -/
def ratTrunc (q : ℚ) : ℤ := if 0 ≤ q then ⌊q⌋ else -⌊-q⌋

/-- Reduction of an integer into the signed 16-bit range, as the C cast
underlying `astype(np.int16)` performs it for the values arising here. -/
def int16cast (n : ℤ) : ℤ := (n + 32768) % 65536 - 32768

/-- Embeds lines 152-153 for one floating-point sample: scale by 32768
and cast to a 16-bit integer. -/
def convertSample (s : ℚ) : ℤ := int16cast (ratTrunc (s * 32768))

/-- One delivered buffer: either already 16-bit integer samples (left
untouched by lines 150-153) or floating-point samples (converted). -/
inductive Buf
  | i16 (xs : List ℤ)
  | f32 (xs : List ℚ)
deriving DecidableEq

/-- Embeds the dtype test of line 150: an integer buffer passes through
unchanged, a float buffer is converted sample by sample. -/
def convertBuf : Buf → Buf
  | Buf.i16 xs => Buf.i16 xs
  | Buf.f32 xs => Buf.i16 (xs.map convertSample)

/-! ### Session target and write loop (line 221 and stream_record, lines 137-161)

Line 221: `frames = int(cfg.dura * cfg.fs)` — Python int() truncates.
The write loop: `while n_frames < frames:` wait for a full block of
`blocksize` frames, write it whole, add `blocksize` to the counter.  A
run of the loop is driven by a trace of events: each `block` is one
full-size delivery from the capture callback, `interrupt` is a
KeyboardInterrupt arriving while the loop waits or writes. -/

/-- The target frame count of line 221, for duration `dura` seconds at
`fs` Hz. -/
def framesTarget (dura : ℚ) (fs : ℕ) : ℤ := ratTrunc (dura * fs)

/-- One event seen by the session write loop. -/
inductive Ev
  | block
  | interrupt
deriving DecidableEq, Repr

/-- Embeds the loop of lines 141-161: while the counter is below the
target, consume the next full-size block and add its length (the block
size) to the counter.  Returns the final counter at normal loop exit;
`none` when a KeyboardInterrupt aborts the loop (an exhausted trace
models a producer that never delivers again, so the busy-wait of lines
142-144 never finishes and the loop never exits normally). -/
def srLoop (frames blocksize : ℕ) : List Ev → ℕ → Option ℕ
  | [], n => if n < frames then none else some n
  | Ev.interrupt :: _, n => if n < frames then none else some n
  | Ev.block :: rest, n =>
    if n < frames then srLoop frames blocksize rest (n + blocksize) else some n

/-- Embeds stream_record (lines 127-166): open the session file, run
the write loop, and — only when the loop exits normally — call
`wf.close()` (line 164).  Returns the frames written at completion
(`none` when the session was aborted) and the number of times the
explicit `wf.close()` was invoked.  A KeyboardInterrupt inside the loop
propagates out of stream_record, skipping line 164. -/
def stream_record (frames blocksize : ℕ) (evs : List Ev) : Option ℕ × ℕ :=
  match srLoop frames blocksize evs 0 with
  | some w => (some w, 1)
  | none => (none, 0)

/-! ### Main lifecycle (main, lines 174-259)

Startup: the duration check of lines 174-176 runs before the
negotiation loop; either check exits the process with status 1.  The
capture phase is wrapped in `try ... except KeyboardInterrupt ...
else ...` followed by a SECOND bare `try: stream.stop(); stream.close()
... except: pass` block at the same level (lines 254-259) — it is not a
`finally`, so it runs only when no exception is still propagating. -/

/-- The two kinds of exception the capture phase can raise: the
KeyboardInterrupt that line 241 catches, and a file-creation failure
(for example wave.open failing on line 131), which nothing catches. -/
inductive LoopExc
  | keyboardInterrupt
  | fileCreateError
deriving DecidableEq, Repr

/-- Embeds main lines 174-212: exit 1 when the duration is not
positive (before the device is ever consulted), otherwise negotiate an
encoding and exit 1 when every encoding is rejected. -/
def mainStartup (dura : ℚ) (accepts : Dtype → Bool) : Except ℕ Dtype :=
  if dura ≤ 0 then Except.error 1
  else
    match (negotiate accepts negotiationOrder).2 with
    | none => Except.error 1
    | some d => Except.ok d

/-- Embeds main lines 218-259 given how the capture loop body ended.
Returns the number of stream teardown invocations (each one a
`stream.stop(); stream.close()` pair) and the exception, if any, still
propagating when main is left.  The `except KeyboardInterrupt` clause
(line 241) handles only that exception; the `else` clause (lines
245-252) tears the stream down once after a normal loop exit; the
trailing try-block (lines 254-259) tears it down once more, but is
reached only when no exception is propagating. -/
def mainShutdown (body : Except LoopExc Unit) : ℕ × Option LoopExc :=
  let handled : ℕ × Option LoopExc :=
    match body with
    | Except.ok () => (1, none)
    | Except.error LoopExc.keyboardInterrupt => (0, none)
    | Except.error e => (0, some e)
  match handled.2 with
  | some e => (handled.1, some e)
  | none => (handled.1 + 1, none)

/-- Process exit status of the whole program: a startup failure exits
with its code; otherwise a run whose exceptions are all handled falls
off the end of main and exits 0, and an unhandled exception terminates
the interpreter with status 1. -/
def mainExitCode (dura : ℚ) (accepts : Dtype → Bool) (body : Except LoopExc Unit) : ℕ :=
  match mainStartup dura accepts with
  | Except.error c => c
  | Except.ok _ =>
    match (mainShutdown body).2 with
    | none => 0
    | some _ => 1

/-! ### Helper lemmas about the write loop -/

/-- Helper: whenever the write loop exits normally, the final counter is
at least the start value and the target, exceeds the start value by a
multiple of the block size, and — unless the loop body never ran — is
below target plus block size. -/
theorem srLoop_some_inv (frames bs : ℕ) (evs : List Ev) :
    ∀ (n w : ℕ), srLoop frames bs evs n = some w →
      n ≤ w ∧ frames ≤ w ∧ bs ∣ (w - n) ∧ (w = n ∨ w < frames + bs) := by
  induction evs with
  | nil =>
    intro n w h
    by_cases hn : n < frames
    · simp [srLoop, hn] at h
    · simp only [srLoop, if_neg hn, Option.some.injEq] at h
      subst h
      exact ⟨le_refl _, by omega, ⟨0, by omega⟩, Or.inl rfl⟩
  | cons e rest ih =>
    intro n w h
    by_cases hn : n < frames
    · cases e with
      | interrupt => simp [srLoop, hn] at h
      | block =>
        rw [srLoop, if_pos hn] at h
        obtain ⟨h1, h2, h3, h4⟩ := ih (n + bs) w h
        obtain ⟨c, hc⟩ := h3
        refine ⟨by omega, h2, ⟨c + 1, by rw [Nat.mul_succ]; omega⟩, Or.inr ?_⟩
        rcases h4 with h4 | h4 <;> omega
    · cases e <;>
        · simp only [srLoop, if_neg hn, Option.some.injEq] at h
          subst h
          exact ⟨le_refl _, by omega, ⟨0, by omega⟩, Or.inl rfl⟩

/-- Helper: a trace of enough full-size blocks, with no interrupt, runs
the write loop to normal completion. -/
theorem srLoop_replicate_isSome (frames bs : ℕ) :
    ∀ (k n : ℕ), frames ≤ n + k * bs →
      (srLoop frames bs (List.replicate k Ev.block) n).isSome := by
  intro k
  induction k with
  | zero =>
    intro n h
    simp only [Nat.zero_mul, Nat.add_zero] at h
    simp [List.replicate, srLoop, Nat.not_lt.mpr h]
  | succ k ih =>
    intro n h
    by_cases hn : n < frames
    · rw [List.replicate, srLoop, if_pos hn]
      exact ih (n + bs) (by rw [Nat.succ_mul] at h; omega)
    · simp [List.replicate, srLoop, hn]

/-- Helper: the interval from the target to target plus block size holds
exactly one multiple of the block size, namely blocksize times the
ceiling of target over blocksize. -/
theorem least_multiple_unique (bs frames w : ℕ) (hbs : 0 < bs) (hdvd : bs ∣ w)
    (h1 : frames ≤ w) (h2 : w < frames + bs) :
    w = bs * ((frames + bs - 1) / bs) := by
  obtain ⟨q, hq⟩ := hdvd
  have hle : q ≤ (frames + bs - 1) / bs := by
    rw [Nat.le_div_iff_mul_le hbs, Nat.mul_comm q bs, ← hq]
    omega
  have hge : (frames + bs - 1) / bs ≤ q := by
    rw [Nat.div_le_iff_le_mul_add_pred hbs, ← hq]
    omega
  have hqe : q = (frames + bs - 1) / bs := le_antisymm hle hge
  rw [hq, hqe]

/-! ### Claim theorems -/

/-- Claim C1 (code bug). The claim and the comments of the source (line
234: the sentinel is meant to make the script record forever, and the
CFG comment on line 50) say the stop check never succeeds when the
configured cutoff hour is -1.  The code tests `tid.hour != -1` — the
current hour, which is never -1 — instead of the cutoff hour, and
`tid.hour > -1` holds for every real hour, so with the sentinel cutoff
the loop breaks immediately: at current time 12:00 with cutoff -1:0 the
code stop check succeeds while the specified check does not. -/
theorem C1_sentinel_cutoff_eval :
    shouldStop 12 0 (-1) 0 = true ∧ shouldStopSpec 12 0 (-1) 0 = false := by
  decide

/-- Supporting lemma: away from the sentinel (a real current hour and a
cutoff hour other than -1) the code stop check agrees with the
specified one. -/
theorem shouldStop_agrees_on_valid (nowHour nowMinute endHour endMinute : Int)
    (h1 : 0 ≤ nowHour) (h2 : endHour ≠ -1) :
    shouldStop nowHour nowMinute endHour endMinute =
      shouldStopSpec nowHour nowMinute endHour endMinute := by
  unfold shouldStop shouldStopSpec
  have hA : (nowHour != -1) = true := by simp [bne_iff_ne]; omega
  have hB : (endHour != -1) = true := by simp [bne_iff_ne, h2]
  rw [hA, hB]
  simp

/-- Claim C2, counterexample. On a day rollover with session index 5,
the code signals folder creation but leaves the session index at 5, not
0: the session index does not restart on a new calendar day. -/
theorem C2_rollover_keeps_session_cex :
    (checkDayRollover ⟨20240101, 5⟩ 20240102).2 = true ∧
    (checkDayRollover ⟨20240101, 5⟩ 20240102).1.session = 5 ∧
    (checkDayRollover ⟨20240101, 5⟩ 20240102).1.session ≠ 0 ∧
    (checkDayRolloverSpec ⟨20240101, 5⟩ 20240102).1.session = 0 := by
  decide

/-- Claim C2, amended: when the observed date differs from the stored
day key, the rollover check updates the key and signals that the new
day folder must be created, but the session index is carried over
unchanged — it does not restart at 0 on a new calendar day. -/
theorem C2_rollover_updates_day_keeps_session (st : RotState) (today : Int)
    (h : today ≠ st.currentDay) :
    checkDayRollover st today =
      ({ currentDay := today, session := st.session }, true) := by
  simp [checkDayRollover, bne_iff_ne, h]

/-- Witness for C2: the amended rollover behaviour at a concrete state. -/
theorem C2_rollover_witness :
    checkDayRollover ⟨20240101, 5⟩ 20240102 =
      ({ currentDay := 20240102, session := 5 }, true) :=
  C2_rollover_updates_day_keeps_session ⟨20240101, 5⟩ 20240102 (by decide)

/-- Claim C7 (confirmed): negotiation tries the encodings in the fixed
order float32, float24, int16; the rejected attempts are exactly the
all-rejected prefix of that order and the result is the first accepted
encoding; the result is empty exactly when the device rejects all
three; and a device rejecting the first two and accepting the third
sees exactly those two failed attempts, in order, before success. -/
theorem C7_negotiation_priority_order (accepts : Dtype → Bool) :
    negotiate accepts negotiationOrder =
      (negotiationOrder.takeWhile (fun d => !accepts d), negotiationOrder.find? accepts) ∧
    ((negotiate accepts negotiationOrder).2 = none ↔
      ∀ d ∈ negotiationOrder, accepts d = false) ∧
    (accepts Dtype.float32 = false → accepts Dtype.float24 = false →
      accepts Dtype.int16 = true →
      negotiate accepts negotiationOrder =
        ([Dtype.float32, Dtype.float24], some Dtype.int16)) := by
  refine ⟨negotiate_eq accepts _, ?_, ?_⟩
  · rw [negotiate_eq]
    cases h32 : accepts Dtype.float32 <;> cases h24 : accepts Dtype.float24 <;>
      cases h16 : accepts Dtype.int16 <;>
      simp [negotiationOrder, List.find?, h32, h24, h16]
  · intro h32 h24 h16
    rw [negotiate_eq]
    simp [negotiationOrder, List.takeWhile, List.find?, h32, h24, h16]

/-- Helper: for a sample in the valid range, the truncated scaled value
already lies in the signed 16-bit range, so the int16 cast cannot
change it. -/
theorem ratTrunc_scaled_bounds (s : ℚ) (h1 : -1 ≤ s) (h2 : s < 1) :
    -32768 ≤ ratTrunc (s * 32768) ∧ ratTrunc (s * 32768) ≤ 32767 := by
  have hq1 : (-32768 : ℚ) ≤ s * 32768 := by nlinarith
  have hq2 : s * 32768 < 32768 := by nlinarith
  unfold ratTrunc
  by_cases h : 0 ≤ s * 32768
  · rw [if_pos h]
    have hnn : (0 : ℤ) ≤ ⌊s * 32768⌋ := Int.floor_nonneg.mpr h
    have hlt : ⌊s * 32768⌋ < 32768 := Int.floor_lt.mpr (by push_cast; linarith)
    omega
  · rw [if_neg h]
    push_neg at h
    have hnn : (0 : ℤ) ≤ ⌊-(s * 32768)⌋ := Int.floor_nonneg.mpr (by linarith)
    have hle : ⌊-(s * 32768)⌋ ≤ 32768 := by
      have := Int.floor_le_floor (α := ℚ) (show -(s * 32768) ≤ 32768 by linarith)
      simpa using this
    omega

/-- Claim C4, counterexample. At the sample -1/65536 (an exact 32-bit
float, scaling to -1/2) the code conversion truncates toward zero and
yields 0, while floor(s × 32768) clamped to the 16-bit range is -1: the
conversion is not the claimed clamped floor. -/
theorem C4_floor_claim_cex :
    convertSample (-1/65536) = 0 ∧
    max (-32768) (min 32767 ⌊((-1 : ℚ)/65536) * 32768⌋) = -1 := by
  constructor
  · norm_num [convertSample, ratTrunc, int16cast]
  · norm_num [Int.floor_eq_iff]

/-- Claim C4, amended: for a sample s in [-1, 1) the conversion yields
s × 32768 truncated TOWARD ZERO (not floored), and that value already
lies in the signed 16-bit range, so no clamping or wrapping occurs; the
conversion is a function of the sample alone, hence deterministic. -/
theorem C4_conversion_truncates (s : ℚ) (h1 : -1 ≤ s) (h2 : s < 1) :
    convertSample s = ratTrunc (s * 32768) ∧
    -32768 ≤ convertSample s ∧ convertSample s ≤ 32767 := by
  obtain ⟨hb1, hb2⟩ := ratTrunc_scaled_bounds s h1 h2
  have hcast : convertSample s = ratTrunc (s * 32768) := by
    unfold convertSample int16cast
    rw [Int.emod_eq_of_lt (by omega) (by omega)]
    omega
  exact ⟨hcast, by rw [hcast]; exact hb1, by rw [hcast]; exact hb2⟩

/-- Witness for C4: the amended conversion at the concrete sample 1/2. -/
theorem C4_conversion_witness :
    convertSample (1/2) = ratTrunc ((1/2 : ℚ) * 32768) ∧
    -32768 ≤ convertSample (1/2) ∧ convertSample (1/2) ≤ 32767 :=
  C4_conversion_truncates (1/2) (by norm_num) (by norm_num)

/-- Claim C9 (confirmed): a buffer already in 16-bit integer form passes
through the conversion unchanged, and converting twice equals
converting once. -/
theorem C9_convert_idempotent_lossless :
    (∀ b : Buf, convertBuf (convertBuf b) = convertBuf b) ∧
    (∀ xs : List ℤ, convertBuf (Buf.i16 xs) = Buf.i16 xs) :=
  ⟨fun b => by cases b <;> rfl, fun _ => rfl⟩

/-- Claim C3, counterexample. The session target of line 221 truncates:
for duration 3/2 s at 3 Hz the target is 4 while round(3/2 × 3) is 5;
and even with the integral product 1 × 3, a completed session with
block size 2 writes 4 frames, not round(1 × 3) = 3 — the loop always
writes whole blocks and overshoots the target. -/
theorem C3_round_target_cex :
    (framesTarget (3/2) 3).toNat = 4 ∧ round ((3/2 : ℚ) * 3) = 5 ∧
    srLoop (framesTarget 1 3).toNat 2 [Ev.block, Ev.block] 0 = some 4 ∧
    round ((1 : ℚ) * 3) = 3 := by
  have hF : (framesTarget 1 3).toNat = 3 := by
    norm_num [framesTarget, ratTrunc]
    decide
  refine ⟨?_, ?_, ?_, ?_⟩
  · norm_num [framesTarget, ratTrunc, Int.floor_eq_iff]
    decide
  · rw [round_eq]
    norm_num [Int.floor_eq_iff]
  · rw [hF]
    decide
  · rw [round_eq]
    norm_num

/-- Claim C3, amended: the target frame count is int(duration ×
sampleRate) — truncation, not rounding — and a completed session writes
the least multiple of the block size that is at least the target: whole
blocks only, with no trimmed final delivery, so the file may exceed the
target by up to blocksize - 1 frames. -/
theorem C3_completed_session_frames (dura : ℚ) (fs bs : ℕ) (evs : List Ev) (w : ℕ)
    (hbs : 0 < bs)
    (h : srLoop (framesTarget dura fs).toNat bs evs 0 = some w) :
    w = bs * (((framesTarget dura fs).toNat + bs - 1) / bs) := by
  obtain ⟨-, h2, h3, h4⟩ := srLoop_some_inv _ bs evs 0 w h
  rw [Nat.sub_zero] at h3
  refine least_multiple_unique bs _ w hbs h3 h2 ?_
  rcases h4 with h4 | h4 <;> omega

/-- Witness for C3: a session with duration 5/2 s at 2 Hz (target 5)
and block size 2 completes with 6 frames written. -/
theorem C3_completed_session_witness :
    (6 : ℕ) = 2 * (((framesTarget (5/2) 2).toNat + 2 - 1) / 2) := by
  have hF : (framesTarget (5/2) 2).toNat = 5 := by
    norm_num [framesTarget, ratTrunc, Int.floor_eq_iff]
    decide
  have h : srLoop (framesTarget (5/2) 2).toNat 2
      [Ev.block, Ev.block, Ev.block] 0 = some 6 := by
    rw [hF]
    decide
  exact C3_completed_session_frames (5/2) 2 2 [Ev.block, Ev.block, Ev.block] 6
    (by norm_num) h

/-- Claim C10 (confirmed): when every delivery is a full block, the
total written by a completed session is a multiple of the block size,
at least the target int(duration × sampleRate), at most the target plus
blocksize - 1, and the least such multiple. -/
theorem C10_completed_session_least_block_multiple (dura : ℚ) (fs bs w : ℕ)
    (evs : List Ev) (hbs : 0 < bs)
    (h : srLoop (framesTarget dura fs).toNat bs evs 0 = some w) :
    bs ∣ w ∧ (framesTarget dura fs).toNat ≤ w ∧
      w ≤ (framesTarget dura fs).toNat + (bs - 1) ∧
      ∀ m : ℕ, bs ∣ m → (framesTarget dura fs).toNat ≤ m → w ≤ m := by
  obtain ⟨-, h2, h3, h4⟩ := srLoop_some_inv _ bs evs 0 w h
  rw [Nat.sub_zero] at h3
  have hlt : w < (framesTarget dura fs).toNat + bs := by
    rcases h4 with h4 | h4 <;> omega
  refine ⟨h3, h2, by omega, ?_⟩
  intro m hm hfm
  by_contra hcon
  push_neg at hcon
  have hd : bs ∣ (w - m) := Nat.dvd_sub' h3 hm
  have := Nat.le_of_dvd (by omega) hd
  omega

/-- Witness for C10: duration 2 s at 3 Hz (target 6), block size 4, a
completed session writes 8 frames — the least multiple of 4 above 6. -/
theorem C10_completed_session_witness :
    4 ∣ 8 ∧ (framesTarget 2 3).toNat ≤ 8 ∧
      8 ≤ (framesTarget 2 3).toNat + (4 - 1) ∧
      ∀ m : ℕ, 4 ∣ m → (framesTarget 2 3).toNat ≤ m → 8 ≤ m := by
  have hF : (framesTarget 2 3).toNat = 6 := by
    norm_num [framesTarget, ratTrunc]
    decide
  have h : srLoop (framesTarget 2 3).toNat 4 [Ev.block, Ev.block] 0 = some 8 := by
    rw [hF]
    decide
  exact C10_completed_session_least_block_multiple 2 3 4 8 [Ev.block, Ev.block]
    (by norm_num) h

/-- Claim C6, counterexample. A KeyboardInterrupt delivered while the
session is accumulating (after one block of 1024 frames toward a target
of 2048) aborts stream_record before line 164: the explicit wf.close()
is invoked zero times, not exactly once. -/
theorem C6_interrupt_skips_close_cex :
    (stream_record 2048 1024 [Ev.block, Ev.interrupt]).2 = 0 ∧
    (stream_record 2048 1024 [Ev.block, Ev.interrupt]).2 ≠ 1 := by
  decide

/-- Claim C6, amended: the session file close is invoked exactly once
when the session runs to completion; when an interrupt aborts the
session mid-accumulation the exception propagates out of stream_record
and the explicit close is skipped. -/
theorem C6_close_once_on_completion (frames bs k : ℕ) (h : frames ≤ k * bs) :
    (stream_record frames bs (List.replicate k Ev.block)).2 = 1 := by
  have hs := srLoop_replicate_isSome frames bs k 0 (by omega)
  unfold stream_record
  obtain ⟨w, hw⟩ := Option.isSome_iff_exists.mp hs
  rw [hw]

/-- Witness for C6: a completed 2-block session closes its file once. -/
theorem C6_close_once_witness :
    (stream_record 2048 1024 (List.replicate 2 Ev.block)).2 = 1 :=
  C6_close_once_on_completion 2048 1024 2 (by norm_num)

/-- Claim C5 (code bug). Only KeyboardInterrupt is caught by line 241,
and the trailing teardown block of lines 254-259 is an ordinary
statement, not a finally clause: a file-creation failure raised inside
a session propagates past it, so the stream teardown runs zero times —
not exactly once as the claim requires.  For comparison: an interrupt
reaches the teardown once, and a normal cutoff stop runs it twice
(lines 246-248 and again 254-256). -/
theorem C5_in_session_failure_skips_teardown :
    mainShutdown (Except.error LoopExc.fileCreateError) =
      (0, some LoopExc.fileCreateError) ∧
    mainShutdown (Except.error LoopExc.keyboardInterrupt) = (1, none) ∧
    mainShutdown (Except.ok ()) = (2, none) :=
  ⟨rfl, rfl, rfl⟩

/-- Claim C8 (confirmed): a non-positive duration makes startup exit
with status 1 before the device is ever consulted (for every device);
exhausting every encoding also exits with status 1; and a run that
stops normally or by interrupt exits with status 0. -/
theorem C8_exit_codes (dura : ℚ) (accepts : Dtype → Bool)
    (body : Except LoopExc Unit) :
    (dura ≤ 0 → mainStartup dura accepts = Except.error 1 ∧
      mainExitCode dura accepts body = 1) ∧
    (0 < dura → (∀ d ∈ negotiationOrder, accepts d = false) →
      mainExitCode dura accepts body = 1) ∧
    (0 < dura → (negotiate accepts negotiationOrder).2.isSome →
      (body = Except.ok () ∨ body = Except.error LoopExc.keyboardInterrupt) →
      mainExitCode dura accepts body = 0) := by
  refine ⟨?_, ?_, ?_⟩
  · intro h
    exact ⟨by simp [mainStartup, h], by simp [mainExitCode, mainStartup, h]⟩
  · intro hd hrej
    have h32 := hrej Dtype.float32 (by simp [negotiationOrder])
    have h24 := hrej Dtype.float24 (by simp [negotiationOrder])
    have h16 := hrej Dtype.int16 (by simp [negotiationOrder])
    have hn : (negotiate accepts negotiationOrder).2 = none := by
      rw [negotiate_eq]
      simp [negotiationOrder, List.find?, h32, h24, h16]
    simp [mainExitCode, mainStartup, not_le.mpr hd, hn]
  · intro hd hsome hbody
    obtain ⟨d, hdq⟩ := Option.isSome_iff_exists.mp hsome
    have hstart : mainStartup dura accepts = Except.ok d := by
      simp [mainStartup, not_le.mpr hd, hdq]
    rcases hbody with h | h <;> subst h <;>
      simp [mainExitCode, hstart, mainShutdown]

end StreamRecorder
